import Mathlib

/-!
Shallow embedding of the sector-info collection layer of `filecoin-ffi`
(`types.go`) together with a spec-level model of the aggregate-seal
verification entry point, and proofs about the behaviour of these
operations.

Modelling conventions:
* Go byte slices (`[]byte`, CID byte encodings) become `List Nat`.
* Go `int` parameters that take part in bounds arithmetic become `Int`.
* `abi.SectorNumber` (`uint64`) becomes `Nat`; proof-type enum tags become `Int`.
* A Go run-time panic (slice bounds out of range) is modelled as `none`
  of an `Option` result.
-/

namespace FilecoinFFI

/-- Byte-slice comparison mirroring Go `bytes.Compare`: `-1`, `0` or `1` as
`a` is lexicographically less than, equal to, or greater than `b`. -/
def bytesCompare : List Nat → List Nat → Int
  | [], [] => 0
  | [], _ :: _ => -1
  | _ :: _, [] => 1
  | a :: as, b :: bs => if a < b then -1 else if b < a then 1 else bytesCompare as bs

/-- `publicSectorInfo` from `types.go`: proof-type tag, sealed-replica CID
(kept as its canonical byte encoding, the only aspect the code uses), and
sector number. -/
structure publicSectorInfo where
  PoStProofType : Int
  SealedCID : List Nat
  SectorNum : Nat
  deriving DecidableEq, Repr, Inhabited

/-- `proof.SectorInfo` (external `specs-actors` type embedded in
`PrivateSectorInfo`): seal-proof tag, sector number, sealed CID bytes. -/
structure SectorInfo where
  SealProof : Int
  SectorNumber : Nat
  SealedCID : List Nat
  deriving DecidableEq, Repr, Inhabited

/-- `PrivateSectorInfo` from `types.go`: embedded `proof.SectorInfo` plus
cache-directory path, PoSt proof type and sealed-sector file path. -/
structure PrivateSectorInfo where
  sectorInfo : SectorInfo
  CacheDirPath : String
  PoStProofType : Int
  SealedSectorPath : String
  deriving DecidableEq, Repr, Inhabited

/-- Field promotion of the embedded struct: `p.SectorNumber` in Go. -/
def PrivateSectorInfo.SectorNumber (p : PrivateSectorInfo) : Nat :=
  p.sectorInfo.SectorNumber

/-- `SortedPublicSectorInfo` wraps the slice field `f`. -/
structure SortedPublicSectorInfo where
  f : List publicSectorInfo
  deriving DecidableEq, Repr

/-- `SortedPrivateSectorInfo` wraps the slice field `f`. -/
structure SortedPrivateSectorInfo where
  f : List PrivateSectorInfo
  deriving DecidableEq, Repr

/-- `Values` on the public collection returns the underlying slice. -/
def SortedPublicSectorInfo.Values (s : SortedPublicSectorInfo) : List publicSectorInfo :=
  s.f

/-- `Values` on the private collection returns the underlying slice. -/
def SortedPrivateSectorInfo.Values (s : SortedPrivateSectorInfo) : List PrivateSectorInfo :=
  s.f

/-! ### `newSortedPublicSectorInfo` -/

/-- The comparison closure `fn` passed to `sort.Slice` in
`newSortedPublicSectorInfo`, applied to two elements: true when the first
element's sealed CID bytes compare strictly less than the second's. -/
def pubLess (a b : publicSectorInfo) : Bool :=
  bytesCompare a.SealedCID b.SealedCID == -1

/-- The non-strict order induced by `pubLess`: `a` need not come after `b`.
A slice is in `sort.Slice`-sorted order for `pubLess` exactly when it is
pairwise ordered by this relation. -/
def pubLe (a b : publicSectorInfo) : Prop :=
  ¬ pubLess b a = true

instance : DecidableRel pubLe := fun _ _ =>
  inferInstanceAs (Decidable ¬ _)

/-- `newSortedPublicSectorInfo` sorts the input by `pubLess` and wraps it.
Go's `sort.Slice` is an unstable comparison sort from the standard library
(an external collaborator): its contract determines the result only up to
"a permutation of the input that is pairwise ordered for the comparison
closure"; `List.insertionSort` with the induced order `pubLe` is one such
sort and stands in for it. -/
def newSortedPublicSectorInfo (sectorInfo : List publicSectorInfo) : SortedPublicSectorInfo :=
  { f := List.insertionSort pubLe sectorInfo }

/-! ### `NewSortedPrivateSectorInfo` -/

/-- One outer-loop iteration of the dedup pass in
`NewSortedPrivateSectorInfo`. Go evaluates `range remove_duplicate_privSector`
once at inner-loop entry, and `append` only extends the slice, so the indexed
reads `remove_duplicate_privSector[j]` during the loop see the entry-time
elements: the iteration folds over the entry-time accumulator, appending
`sectorInfo[i]` once for every accumulated element whose sector number
differs from it. -/
def dedupInner (acc : List PrivateSectorInfo) (si : PrivateSectorInfo) : List PrivateSectorInfo :=
  acc.foldl (fun cur prev =>
    if ¬ (prev.SectorNumber == si.SectorNumber) = true then cur ++ [si] else cur) acc

/-- The dedup loop of `NewSortedPrivateSectorInfo`: starts from the empty
`remove_duplicate_privSector` accumulator and runs `dedupInner` for each
input element in order. -/
def removeDuplicatePrivSector (sectorInfo : List PrivateSectorInfo) : List PrivateSectorInfo :=
  sectorInfo.foldl dedupInner []

/-- Swap the adjacent positions `j` and `j+1` of the slice (the parallel
assignment in the bubble pass of `NewSortedPrivateSectorInfo`). -/
def swapAdj (l : List PrivateSectorInfo) (j : Nat) : List PrivateSectorInfo :=
  (l.set j (l.getD (j + 1) default)).set (j + 1) (l.getD j default)

/-- The inner bubble pass `for j := 0; j < bound; j++` of
`NewSortedPrivateSectorInfo`, with `fuel = bound - j` remaining iterations:
swaps adjacent out-of-order elements and records in the flag whether any
swap happened. -/
def bubbleInner (l : List PrivateSectorInfo) (flag : Bool) (j : Nat) :
    Nat → List PrivateSectorInfo × Bool
  | 0 => (l, flag)
  | fuel + 1 =>
    if (l.getD j default).SectorNumber > (l.getD (j + 1) default).SectorNumber then
      bubbleInner (swapAdj l j) true (j + 1) fuel
    else
      bubbleInner l flag (j + 1) fuel

/-- The outer bubble loop `for i := 0; i < n; i++` of
`NewSortedPrivateSectorInfo`, with `fuel = n - i` remaining iterations;
breaks early when a pass performed no swap. -/
def bubbleOuter (n : Nat) (l : List PrivateSectorInfo) (i : Nat) :
    Nat → List PrivateSectorInfo
  | 0 => l
  | fuel + 1 =>
    let p := bubbleInner l false 0 (n - i - 1)
    if !p.2 then p.1 else bubbleOuter n p.1 (i + 1) fuel

/-- `NewSortedPrivateSectorInfo` from `types.go`: dedup pass, early return
when fewer than two records remain, otherwise the flagged bubble sort by
sector number. -/
def NewSortedPrivateSectorInfo (sectorInfo : List PrivateSectorInfo) : SortedPrivateSectorInfo :=
  let rdps := removeDuplicatePrivSector sectorInfo
  let new_sector_len := rdps.length
  if new_sector_len < 2 then
    { f := rdps }
  else
    { f := bubbleOuter new_sector_len rdps 0 new_sector_len }

/-! ### `SplitSortedPrivateSectorInfo` -/

/-- The Go slice expression `f[start:end]`: defined (as the elements at
positions `start, …, end-1`) when `0 ≤ start ≤ end ≤ len(f)`, and a
run-time panic — modelled as `none` — otherwise. The capacity of the
backing array is taken to be its length. -/
def goSliceExpr (l : List PrivateSectorInfo) (start stop : Int) :
    Option (List PrivateSectorInfo) :=
  if 0 ≤ start ∧ start ≤ stop ∧ stop ≤ (l.length : Int) then
    some ((l.drop start.toNat).take (stop - start).toNat)
  else
    none

/-- `SplitSortedPrivateSectorInfo` from `types.go` (the unused
`context.Context` parameter is dropped): appends the unchecked slice
`sortPrivSectors.f[start:end]` to a fresh empty slice and returns it with a
nil error. The outer `none` models the slice-bounds panic escaping the
function; the inner `Option String` is the Go `error` result, always `none`
(nil) because the function constructs no error. -/
def SplitSortedPrivateSectorInfo (sortPrivSectors : SortedPrivateSectorInfo)
    (start stop : Int) : Option (SortedPrivateSectorInfo × Option String) :=
  (goSliceExpr sortPrivSectors.f start stop).map (fun sub => ({ f := [] ++ sub }, none))

/-! ### Helper lemmas: the dedup pass never produces anything -/

/-- `dedupInner` on the empty accumulator performs zero guarded iterations. -/
theorem dedupInner_nil (si : PrivateSectorInfo) : dedupInner [] si = [] := rfl

/-- The dedup accumulator starts empty and therefore stays empty: the inner
loop guarding every append runs zero times on an empty accumulator. -/
theorem removeDuplicatePrivSector_eq_nil (l : List PrivateSectorInfo) :
    removeDuplicatePrivSector l = [] := by
  have h : ∀ m : List PrivateSectorInfo, m.foldl dedupInner [] = [] := by
    intro m
    induction m with
    | nil => rfl
    | cons a t ih => simpa [List.foldl, dedupInner_nil] using ih
  exact h l

/-- The private-variant constructor always returns the empty collection. -/
theorem NewSortedPrivateSectorInfo_f_eq_nil (l : List PrivateSectorInfo) :
    (NewSortedPrivateSectorInfo l).f = [] := by
  simp [NewSortedPrivateSectorInfo, removeDuplicatePrivSector_eq_nil]

/-! ### Concrete records used in scenario theorems -/

/-- First record with sector number 7 (scenario input). -/
def sector7a : PrivateSectorInfo :=
  { sectorInfo := { SealProof := 0, SectorNumber := 7, SealedCID := [1] },
    CacheDirPath := "cache-a", PoStProofType := 0, SealedSectorPath := "sealed-a" }

/-- Second record with sector number 7 (scenario input). -/
def sector7b : PrivateSectorInfo :=
  { sectorInfo := { SealProof := 0, SectorNumber := 7, SealedCID := [2] },
    CacheDirPath := "cache-b", PoStProofType := 0, SealedSectorPath := "sealed-b" }

/-- A record with sector number `n`, used to build concrete collections. -/
def privRec (n : Nat) : PrivateSectorInfo :=
  { sectorInfo := { SealProof := 0, SectorNumber := n, SealedCID := [n] },
    CacheDirPath := "cache", PoStProofType := 0, SealedSectorPath := "sealed" }

/-- A concrete five-element private collection. -/
def coll5 : SortedPrivateSectorInfo :=
  { f := [privRec 0, privRec 1, privRec 2, privRec 3, privRec 4] }

/-! ### Claim theorems C1, C2, C3, C6 -/

/-- C1: the claim expects the build on two records sharing sector number 7
to keep exactly one of them; the code instead drops every input — the
result holds zero records with sector number 7, not one. -/
theorem C1_dup7_yields_no_record :
    ((NewSortedPrivateSectorInfo [sector7a, sector7b]).Values.filter
        (fun p => p.SectorNumber == 7)).length = 0 ∧
      (NewSortedPrivateSectorInfo [sector7a, sector7b]).Values = [] := by
  constructor
  · rfl
  · rfl

/-- C2: for every input sequence (non-empty ones included),
`NewSortedPrivateSectorInfo` returns a collection whose `Values` is empty:
the accumulator starts empty, so the inner loop that guards every append
never executes. -/
theorem C2_private_build_always_empty (l : List PrivateSectorInfo) :
    (NewSortedPrivateSectorInfo l).Values = [] := by
  simpa [SortedPrivateSectorInfo.Values] using NewSortedPrivateSectorInfo_f_eq_nil l

/-- C3: the claim expects split with out-of-bounds indices to fail with a
`RangeError`; the code performs the unchecked slice `f[start:end]`, which
on the five-element collection with `start = 4`, `end = 2` panics (modelled
as `none`) instead of returning any error value. -/
theorem C3_split_4_2_panics :
    SplitSortedPrivateSectorInfo coll5 4 2 = none := by
  rfl

/-- C6: no two elements of the result of the private-variant build share a
sector number — vacuously, because the result is always empty. -/
theorem C6_private_build_nodup_sector_numbers (l : List PrivateSectorInfo) :
    (NewSortedPrivateSectorInfo l).Values.Pairwise
      (fun a b => a.SectorNumber ≠ b.SectorNumber) := by
  have h := NewSortedPrivateSectorInfo_f_eq_nil l
  simp [SortedPrivateSectorInfo.Values, h]

/-! ### Order lemmas for `bytesCompare` -/

/-- The empty byte slice compares at or below everything. -/
theorem bytesCompare_nil_le (c : List Nat) : bytesCompare [] c ≤ 0 := by
  cases c <;> simp [bytesCompare]

/-- `bytes.Compare` is antisymmetric up to sign. -/
theorem bytesCompare_flip (a : List Nat) :
    ∀ b, bytesCompare a b = -(bytesCompare b a) := by
  induction a with
  | nil => intro b; cases b <;> simp [bytesCompare]
  | cons x xs ih =>
    intro b
    cases b with
    | nil => simp [bytesCompare]
    | cons y ys =>
      simp only [bytesCompare]
      rcases Nat.lt_trichotomy x y with h | h | h
      · simp [h, Nat.lt_asymm h]
      · subst h; simp [Nat.lt_irrefl, ih]
      · simp [h, Nat.lt_asymm h]

/-- `bytes.Compare` only returns `-1`, `0` or `1`. -/
theorem bytesCompare_trichot (a : List Nat) :
    ∀ b, bytesCompare a b = -1 ∨ bytesCompare a b = 0 ∨ bytesCompare a b = 1 := by
  induction a with
  | nil => intro b; cases b <;> simp [bytesCompare]
  | cons x xs ih =>
    intro b
    cases b with
    | nil => simp [bytesCompare]
    | cons y ys =>
      simp only [bytesCompare]
      split_ifs <;> simp [ih]

/-- The non-strict byte order is transitive. -/
theorem bytesCompare_le_trans (a : List Nat) :
    ∀ b c, bytesCompare a b ≤ 0 → bytesCompare b c ≤ 0 → bytesCompare a c ≤ 0 := by
  induction a with
  | nil => intro b c _ _; exact bytesCompare_nil_le c
  | cons x xs ih =>
    intro b c hab hbc
    cases b with
    | nil => simp [bytesCompare] at hab
    | cons y ys =>
      cases c with
      | nil => simp [bytesCompare] at hbc
      | cons z zs =>
        simp only [bytesCompare] at hab hbc ⊢
        split_ifs at hab hbc ⊢ <;>
          first
          | omega
          | exact ih ys zs hab hbc

/-- `pubLe a b` says exactly that `a`'s CID bytes compare at or below `b`'s. -/
theorem pubLe_iff (a b : publicSectorInfo) :
    pubLe a b ↔ bytesCompare a.SealedCID b.SealedCID ≤ 0 := by
  have hflip := bytesCompare_flip b.SealedCID a.SealedCID
  have htri := bytesCompare_trichot a.SealedCID b.SealedCID
  simp only [pubLe, pubLess, beq_iff_eq, hflip]
  constructor
  · intro h
    rcases htri with h1 | h1 | h1 <;> omega
  · intro h
    omega

instance : IsTotal publicSectorInfo pubLe :=
  ⟨fun a b => by
    rw [pubLe_iff, pubLe_iff]
    have hflip := bytesCompare_flip b.SealedCID a.SealedCID
    rcases bytesCompare_trichot a.SealedCID b.SealedCID with h | h | h
    · left; omega
    · left; omega
    · right; omega⟩

instance : IsTrans publicSectorInfo pubLe :=
  ⟨fun a b c hab hbc => by
    rw [pubLe_iff] at hab hbc ⊢
    exact bytesCompare_le_trans _ _ _ hab hbc⟩

/-! ### Concrete public records for the sort scenario -/

/-- Record with identifier byte `"a"`. -/
def pubA : publicSectorInfo := { PoStProofType := 0, SealedCID := [97], SectorNum := 1 }

/-- Record with identifier byte `"b"`. -/
def pubB : publicSectorInfo := { PoStProofType := 0, SealedCID := [98], SectorNum := 2 }

/-- Record with identifier byte `"c"`. -/
def pubC : publicSectorInfo := { PoStProofType := 0, SealedCID := [99], SectorNum := 3 }

/-! ### Claim theorems C4, C5 -/

/-- C4: for valid bounds `0 ≤ start ≤ stop ≤ length`, split succeeds with a
nil error and the result is exactly the half-open sub-range: its length is
`stop - start` and its `k`-th element is the source's `(start+k)`-th. -/
theorem C4_split_valid_range (c : SortedPrivateSectorInfo) (start stop : Int)
    (h0 : 0 ≤ start) (h1 : start ≤ stop) (h2 : stop ≤ (c.Values.length : Int)) :
    ∃ r : SortedPrivateSectorInfo,
      SplitSortedPrivateSectorInfo c start stop = some (r, none) ∧
        r.Values.length = (stop - start).toNat ∧
        ∀ k : Nat, k < r.Values.length →
          r.Values.getD k default = c.Values.getD (start.toNat + k) default := by
  have h2f : stop ≤ (c.f.length : Int) := by
    simpa [SortedPrivateSectorInfo.Values] using h2
  refine ⟨{ f := (c.f.drop start.toNat).take (stop - start).toNat }, ?_, ?_, ?_⟩
  · simp [SplitSortedPrivateSectorInfo, goSliceExpr, h0, h1, h2f]
  · simp only [SortedPrivateSectorInfo.Values, List.length_take, List.length_drop]
    omega
  · intro k hk
    simp only [SortedPrivateSectorInfo.Values] at hk ⊢
    have hk2 : k < (stop - start).toNat := by
      simp only [List.length_take, List.length_drop, Nat.lt_min] at hk
      omega
    simp [List.getD_eq_getElem?_getD, List.getElem?_take, hk2, List.getElem?_drop]

/-- C4 witness: splitting the concrete five-element collection with
`start = 2`, `stop = 4` succeeds and returns positions 2 and 3. -/
theorem C4_split_valid_range_witness :
    ∃ r : SortedPrivateSectorInfo,
      SplitSortedPrivateSectorInfo coll5 2 4 = some (r, none) ∧
        r.Values.length = ((4 : Int) - 2).toNat ∧
        ∀ k : Nat, k < r.Values.length →
          r.Values.getD k default = coll5.Values.getD ((2 : Int).toNat + k) default :=
  C4_split_valid_range coll5 2 4 (by decide) (by decide) (by decide)

/-- C5: the public-variant build returns a permutation of its input (equal
keys are never dropped; same length and multiset) that is sorted ascending
by byte-lexicographic comparison of the sealed CIDs, and the `[b, a, c]`
scenario comes out `[a, b, c]`. -/
theorem C5_public_build_sorted_perm (l : List publicSectorInfo) :
    (newSortedPublicSectorInfo l).Values.Perm l ∧
      (newSortedPublicSectorInfo l).Values.Pairwise
        (fun a b => bytesCompare a.SealedCID b.SealedCID ≤ 0) ∧
      (newSortedPublicSectorInfo [pubB, pubA, pubC]).Values = [pubA, pubB, pubC] := by
  refine ⟨?_, ?_, ?_⟩
  · simpa [newSortedPublicSectorInfo, SortedPublicSectorInfo.Values] using
      List.perm_insertionSort pubLe l
  · have h := List.sorted_insertionSort pubLe l
    simpa [newSortedPublicSectorInfo, SortedPublicSectorInfo.Values] using
      List.Pairwise.imp (fun hxy => (pubLe_iff _ _).mp hxy) h
  · decide

/-! ### JSON model for `MarshalJSON` / `UnmarshalJSON`

`encoding/json` is modelled at the level of JSON values rather than byte
strings: the marshaller produces the JSON value the byte output denotes,
and the unmarshaller consumes one, `none` being the decode error. A Go nil
slice marshals to JSON null and null unmarshals back to nil; both denote
the empty `Values` sequence, so the model identifies them with the empty
array. -/

/-- JSON values. -/
inductive Json where
  | null
  | bool (b : Bool)
  | num (n : Int)
  | str (s : String)
  | arr (elems : List Json)
  | obj (fields : List (String × Json))
  deriving Repr

/-- Canonical byte encoding of a CID for JSON transport, modelled as the
array of its bytes; the real base-encoded form is an external collaborator
detail, and only its being a faithful round-trip encoding matters here. -/
def encodeBytes (bs : List Nat) : Json :=
  Json.arr (bs.map (fun b : Nat => Json.num (Int.ofNat b)))

/-- Decode a signed integer field. -/
def decodeNum : Json → Option Int
  | Json.num n => some n
  | _ => none

/-- Decode a string field. -/
def decodeStr : Json → Option String
  | Json.str s => some s
  | _ => none

/-- Decode an unsigned integer field: a negative JSON number into an
unsigned Go field is a decode error. -/
def decodeUint : Json → Option Nat
  | Json.num n => if 0 ≤ n then some n.toNat else none
  | _ => none

/-- Decode a list of byte values. -/
def decodeBytesElems : List Json → Option (List Nat)
  | [] => some []
  | j :: js =>
    match decodeUint j, decodeBytesElems js with
    | some b, some rest => some (b :: rest)
    | _, _ => none

/-- Decode CID bytes. -/
def decodeBytes : Json → Option (List Nat)
  | Json.arr es => decodeBytesElems es
  | _ => none

/-- Field lookup in a decoded JSON object, as `encoding/json` matches
object keys to struct fields. -/
def getField : List (String × Json) → String → Option Json
  | [], _ => none
  | (k, v) :: rest, key => if k = key then some v else getField rest key

/-- JSON encoding of a `publicSectorInfo`, one object per record with the
record's field set. -/
def encodePub (p : publicSectorInfo) : Json :=
  Json.obj [("PoStProofType", Json.num p.PoStProofType),
            ("SealedCID", encodeBytes p.SealedCID),
            ("SectorNum", Json.num p.SectorNum)]

/-- JSON decoding of a `publicSectorInfo`. -/
def decodePub (j : Json) : Option publicSectorInfo :=
  match j with
  | Json.obj fs =>
    match getField fs "PoStProofType", getField fs "SealedCID", getField fs "SectorNum" with
    | some tj, some cj, some nj =>
      match decodeNum tj, decodeBytes cj, decodeUint nj with
      | some t, some c, some n => some { PoStProofType := t, SealedCID := c, SectorNum := n }
      | _, _, _ => none
    | _, _, _ => none
  | _ => none

/-- JSON encoding of a `PrivateSectorInfo`; the fields of the embedded
`proof.SectorInfo` are promoted to the top level, as Go does for anonymous
embedded structs. -/
def encodePriv (p : PrivateSectorInfo) : Json :=
  Json.obj [("SealProof", Json.num p.sectorInfo.SealProof),
            ("SectorNumber", Json.num p.sectorInfo.SectorNumber),
            ("SealedCID", encodeBytes p.sectorInfo.SealedCID),
            ("CacheDirPath", Json.str p.CacheDirPath),
            ("PoStProofType", Json.num p.PoStProofType),
            ("SealedSectorPath", Json.str p.SealedSectorPath)]

/-- JSON decoding of a `PrivateSectorInfo`. -/
def decodePriv (j : Json) : Option PrivateSectorInfo :=
  match j with
  | Json.obj fs =>
    match getField fs "SealProof", getField fs "SectorNumber", getField fs "SealedCID",
        getField fs "CacheDirPath", getField fs "PoStProofType",
        getField fs "SealedSectorPath" with
    | some spj, some snj, some cj, some cdj, some ptj, some ssj =>
      match decodeNum spj, decodeUint snj, decodeBytes cj, decodeStr cdj,
          decodeNum ptj, decodeStr ssj with
      | some sp, some sn, some c, some cd, some pt, some ss =>
        some { sectorInfo := { SealProof := sp, SectorNumber := sn, SealedCID := c },
               CacheDirPath := cd, PoStProofType := pt, SealedSectorPath := ss }
      | _, _, _, _, _, _ => none
    | _, _, _, _, _, _ => none
  | _ => none

/-- Decode an array of public records, element by element, in order. -/
def decodePubElems : List Json → Option (List publicSectorInfo)
  | [] => some []
  | j :: js =>
    match decodePub j, decodePubElems js with
    | some p, some rest => some (p :: rest)
    | _, _ => none

/-- Decode an array of private records, element by element, in order. -/
def decodePrivElems : List Json → Option (List PrivateSectorInfo)
  | [] => some []
  | j :: js =>
    match decodePriv j, decodePrivElems js with
    | some p, some rest => some (p :: rest)
    | _, _ => none

/-- Encoding of a public record slice: an ordered JSON array. -/
def encodePubList (l : List publicSectorInfo) : Json :=
  Json.arr (l.map encodePub)

/-- Encoding of a private record slice: an ordered JSON array. -/
def encodePrivList (l : List PrivateSectorInfo) : Json :=
  Json.arr (l.map encodePriv)

/-- Decoding of a public record slice: anything but an array is malformed. -/
def decodePubList : Json → Option (List publicSectorInfo)
  | Json.arr es => decodePubElems es
  | _ => none

/-- Decoding of a private record slice. -/
def decodePrivList : Json → Option (List PrivateSectorInfo)
  | Json.arr es => decodePrivElems es
  | _ => none

/-- `MarshalJSON` on the public collection: `json.Marshal(s.f)`. -/
def SortedPublicSectorInfo.MarshalJSON (s : SortedPublicSectorInfo) : Json :=
  encodePubList s.f

/-- `UnmarshalJSON` on the public collection: `json.Unmarshal(b, &s.f)` —
stores the decoded array verbatim in `f`; `none` is the decode error. -/
def SortedPublicSectorInfo.UnmarshalJSON (j : Json) : Option SortedPublicSectorInfo :=
  (decodePubList j).map (fun l => { f := l })

/-- `MarshalJSON` on the private collection: `json.Marshal(s.f)`. -/
def SortedPrivateSectorInfo.MarshalJSON (s : SortedPrivateSectorInfo) : Json :=
  encodePrivList s.f

/-- `UnmarshalJSON` on the private collection. -/
def SortedPrivateSectorInfo.UnmarshalJSON (j : Json) : Option SortedPrivateSectorInfo :=
  (decodePrivList j).map (fun l => { f := l })

/-! ### Round-trip lemmas -/

/-- Unsigned decode inverts the number encoding. -/
theorem decodeUint_encode (n : Nat) : decodeUint (Json.num n) = some n := by
  simp [decodeUint]

/-- Element-wise byte decode inverts the element-wise encoding. -/
theorem decodeBytesElems_encode (bs : List Nat) :
    decodeBytesElems (bs.map (fun b : Nat => Json.num (Int.ofNat b))) = some bs := by
  induction bs with
  | nil => rfl
  | cons b t ih =>
    have hb : decodeUint (Json.num (Int.ofNat b)) = some b := by
      simp [decodeUint]
    simp only [List.map_cons, decodeBytesElems, hb, ih]

/-- Byte-array decode inverts the byte-array encoding. -/
theorem decodeBytes_encode (bs : List Nat) : decodeBytes (encodeBytes bs) = some bs := by
  simp only [decodeBytes, encodeBytes, decodeBytesElems_encode]

/-- Public-record decode inverts the encoding. -/
theorem decodePub_encode (p : publicSectorInfo) : decodePub (encodePub p) = some p := by
  simp [decodePub, encodePub, getField, decodeNum, decodeBytes_encode, decodeUint_encode]

/-- Private-record decode inverts the encoding. -/
theorem decodePriv_encode (p : PrivateSectorInfo) : decodePriv (encodePriv p) = some p := by
  simp [decodePriv, encodePriv, getField, decodeNum, decodeStr, decodeBytes_encode,
    decodeUint_encode]

/-- Public-array decode inverts the array encoding, preserving order. -/
theorem decodePubElems_encode (l : List publicSectorInfo) :
    decodePubElems (l.map encodePub) = some l := by
  induction l with
  | nil => rfl
  | cons p t ih => simp [decodePubElems, decodePub_encode, ih]

/-- Private-array decode inverts the array encoding, preserving order. -/
theorem decodePrivElems_encode (l : List PrivateSectorInfo) :
    decodePrivElems (l.map encodePriv) = some l := by
  induction l with
  | nil => rfl
  | cons p t ih => simp [decodePrivElems, decodePriv_encode, ih]

/-- Marshal-then-unmarshal restores any public collection. -/
theorem pub_unmarshal_marshal (s : SortedPublicSectorInfo) :
    SortedPublicSectorInfo.UnmarshalJSON s.MarshalJSON = some s := by
  simp [SortedPublicSectorInfo.UnmarshalJSON, SortedPublicSectorInfo.MarshalJSON,
    encodePubList, decodePubList, decodePubElems_encode]

/-- Marshal-then-unmarshal restores any private collection. -/
theorem priv_unmarshal_marshal (s : SortedPrivateSectorInfo) :
    SortedPrivateSectorInfo.UnmarshalJSON s.MarshalJSON = some s := by
  simp [SortedPrivateSectorInfo.UnmarshalJSON, SortedPrivateSectorInfo.MarshalJSON,
    encodePrivList, decodePrivList, decodePrivElems_encode]

/-! ### Claim theorems C7, C8, C9 -/

/-- C7: serializing a built collection and deserializing the result yields
a collection with the same `Values`, for both variants. -/
theorem C7_serialize_roundtrip (lpub : List publicSectorInfo)
    (lpriv : List PrivateSectorInfo) :
    SortedPublicSectorInfo.UnmarshalJSON ((newSortedPublicSectorInfo lpub).MarshalJSON) =
        some (newSortedPublicSectorInfo lpub) ∧
      SortedPrivateSectorInfo.UnmarshalJSON
          ((NewSortedPrivateSectorInfo lpriv).MarshalJSON) =
        some (NewSortedPrivateSectorInfo lpriv) :=
  ⟨pub_unmarshal_marshal _, priv_unmarshal_marshal _⟩

/-- C8: the claim expects build on an already-sorted, duplicate-free input
to return it unchanged; the private variant does not — the single-record
input `[privRec 5]` (trivially sorted and duplicate-free) comes back as the
empty collection, not as itself. -/
theorem C8_private_build_not_idempotent :
    List.Pairwise (fun a b => a.SectorNumber < b.SectorNumber) [privRec 5] ∧
      (NewSortedPrivateSectorInfo [privRec 5]).Values = [] ∧
      (NewSortedPrivateSectorInfo [privRec 5]).Values ≠ [privRec 5] := by
  refine ⟨by simp, rfl, ?_⟩
  intro h
  exact List.cons_ne_nil (privRec 5) [] h.symm

/-- C9: both unmarshallers store a well-formed array verbatim — any record
list, sorted or not, is accepted and stored exactly as decoded — and fail
exactly on malformed input, such as a non-array value or an array whose
element does not match the record schema. -/
theorem C9_unmarshal_verbatim_and_rejects_malformed :
    (∀ l : List publicSectorInfo,
        SortedPublicSectorInfo.UnmarshalJSON (encodePubList l) = some { f := l }) ∧
      (∀ l : List PrivateSectorInfo,
        SortedPrivateSectorInfo.UnmarshalJSON (encodePrivList l) = some { f := l }) ∧
      SortedPublicSectorInfo.UnmarshalJSON (Json.str "not-an-array") = none ∧
      SortedPrivateSectorInfo.UnmarshalJSON (Json.arr [Json.num 3]) = none := by
  refine ⟨?_, ?_, rfl, rfl⟩
  · intro l
    simp [SortedPublicSectorInfo.UnmarshalJSON, encodePubList, decodePubList,
      decodePubElems_encode]
  · intro l
    simp [SortedPrivateSectorInfo.UnmarshalJSON, encodePrivList, decodePrivList,
      decodePrivElems_encode]

/-! ### Aggregate-seal verification (spec-modelled) -/

/-- Modelled from the spec: `AggregateSealVerifyProofAndInfos` (spec §3) is
an opaque, externally defined decoded structure carrying an aggregate proof
blob plus the list of per-sector claims it attests to; its internal shape
is owned by the external proof system, so the claims are kept as opaque
byte blobs. -/
structure AggregateSealVerifyProofAndInfos where
  Proof : List Nat
  Infos : List (List Nat)
  deriving DecidableEq, Repr

/-- Modelled from the spec: the fixed external verifying key/context
(spec §4.3, §9), configured once at process start and not mutated by calls,
exposing the collaborator's aggregate-verification routine as a fixed
mapping from a decoded record to a pass/fail flag plus diagnostic error. -/
structure VerifyingContext where
  verifyAggregateSeal : AggregateSealVerifyProofAndInfos → Bool × Option String

/-- Modelled from the spec: `VerifyAggregateSeals` (the entry point itself
is absent from the visible sources; only its caller in `agg_test.go` is
present) delegates to the external collaborator's routine, passing the
decoded structure unchanged, with no local caching and no retries. -/
def VerifyAggregateSeals (ctx : VerifyingContext)
    (agg : AggregateSealVerifyProofAndInfos) : Bool × Option String :=
  ctx.verifyAggregateSeal agg

/-- A concrete verifying context for the determinism witness. -/
def trivialContext : VerifyingContext :=
  { verifyAggregateSeal := fun _ => (true, none) }

/-- A concrete aggregate record for the determinism witness. -/
def sampleAgg : AggregateSealVerifyProofAndInfos :=
  { Proof := [1, 2], Infos := [[3]] }

/-- C10: under a fixed verifying context, two calls of
`VerifyAggregateSeals` on identical input return identical results. -/
theorem C10_verify_deterministic (ctx : VerifyingContext)
    (agg : AggregateSealVerifyProofAndInfos) (r1 r2 : Bool × Option String)
    (h1 : r1 = VerifyAggregateSeals ctx agg)
    (h2 : r2 = VerifyAggregateSeals ctx agg) : r1 = r2 := by
  rw [h1, h2]

/-- C10 witness: the determinism theorem applied at a concrete context and
aggregate record. -/
theorem C10_verify_deterministic_witness :
    VerifyAggregateSeals trivialContext sampleAgg =
      VerifyAggregateSeals trivialContext sampleAgg :=
  C10_verify_deterministic trivialContext sampleAgg
    (VerifyAggregateSeals trivialContext sampleAgg)
    (VerifyAggregateSeals trivialContext sampleAgg) rfl rfl

end FilecoinFFI
